import Mathlib

/-!
Shallow embedding of `src/decoders/self_attention_decoder.py`
(`Multi_domain_SelfAttentionDecoder`), a multi-domain self-attention
decoder.  Tensor values and the external collaborator layers
(`transformer.SelfAttentionDecoderLayer`, `Multi_domain_FeedForwardNetwork`,
`common.LayerNorm`, the output projection and the position encoder) are kept
abstract: the decoder only composes them, so they appear as opaque function
bundles.  TensorFlow primitives used by the decoder (`tf.shape`,
`tf.nn.embedding_lookup`, `tf.fill`, `tf.sequence_mask`, `tf.expand_dims`,
`tf.squeeze`, `tf.zeros`) and the module-level helpers
(`transformer.future_mask`, `common.dropout`) are fields of an ambient
operation bundle, except those whose semantics are concrete
(`tf.fill` is `List.replicate`, `tf.sequence_mask` is computed below).
Python exceptions (`ValueError`, the `TypeError` from `zip(None, ...)`, the
`IndexError` from `cache[i]`, the `NameError` from an unbound loop variable)
are modelled with `Except String`.
-/

/-- The carrier types of the tensor model.
`V` is a sequence-shaped tensor `[batch, time, depth]`, `U` a single-step
tensor `[batch, depth]`, `M` a causal attention mask, `Mem` a memory
(encoder output) tensor, `Att` an attention tensor over a sequence, `AttU`
an attention tensor with the time axis squeezed out, `Dom` a tensor of
per-example domain ids, `DMT` the domain-mask table built by
`make_domain_mask`, `DM` a looked-up domain mask, `A` an external parameter
bundle (`args_dict`), `KV` a cached key/value tensor, `Dtype` a numeric
type, `R` a dropout rate. -/
structure TFTypes : Type 1 where
  V : Type
  U : Type
  M : Type
  Mem : Type
  Att : Type
  AttU : Type
  Dom : Type
  DMT : Type
  DM : Type
  A : Type
  KV : Type
  Dtype : Type
  R : Type

/-- One decoder-layer cache entry, as built by `_get_initial_state`:
`self_kv` holds the key/value projections of previously decoded positions,
`memory_kv` one key/value pair per memory source. -/
structure CacheEntry (KV : Type) where
  self_kv : KV × KV
  memory_kv : List (KV × KV)
  deriving DecidableEq, Repr

/-- A Python argument that may be a single value or a list/tuple of values,
as discriminated by `isinstance(x, (list, tuple))` in `_run`. -/
inductive TensorOrList (α : Type) where
  | single (a : α)
  | seq (l : List α)
  deriving DecidableEq, Repr

/-- The ambient operations: TensorFlow primitives and module-level helpers
used by the decoder.  `dropout` is `common.dropout` (the rate argument is the
decoder's `self.dropout`), `future_mask` is `transformer.future_mask`,
`scale` models `inputs *= self.num_units**0.5`, `dim0`/`dim1` are
`tf.shape(x)[0]` / `tf.shape(x)[1]`, `mem_dim1` is `tf.shape(mem)[1]`. -/
structure TFOps (τ : TFTypes) where
  embedding_lookup : τ.DMT → τ.Dom → τ.DM
  scale : τ.V → Nat → τ.V
  add : τ.V → τ.V → τ.V
  dropout : τ.V → τ.R → Option Bool → τ.V
  dim0 : τ.V → Nat
  dim1 : τ.V → Nat
  mem_dim1 : τ.Mem → Nat
  future_mask : List Nat → Nat → τ.M
  expand_dims1 : τ.U → τ.V
  squeeze1 : τ.V → τ.U
  att_squeeze1 : τ.Att → τ.AttU
  zeros : List Nat → τ.Dtype → τ.KV

/-- `tf.sequence_mask(lengths, maxlen)`: for each length `l` in the batch, a
row of `maxlen` booleans that is `true` exactly at positions `< l`. -/
def sequence_mask (lengths : List Nat) (maxlen : Nat) : List (List Bool) :=
  lengths.map (fun l => (List.range maxlen).map (fun j => decide (j < l)))

/-- The memory mask passed to a decoder layer: one boolean mask per memory
source. -/
def MemMask : Type := List (List (List Bool))

/-- The external capability `transformer.SelfAttentionDecoderLayer`: an
owned-parameter entry point (`__call__`) and an explicit-parameter entry
point (`forward_fn`) receiving an `args_dict`.  Signature as invoked by
`_run` / `_run_forward_fn`:
`(inputs, mask, memory, memory_mask, cache, training) ->
 (outputs, layer_cache, attention)`. -/
structure SelfAttentionDecoderLayerCap (τ : TFTypes) where
  call : τ.V → Option τ.M → Option (List τ.Mem) → Option MemMask →
      Option (CacheEntry τ.KV) → Option Bool →
      τ.V × CacheEntry τ.KV × Option τ.Att
  forward_fn : τ.V → τ.A → Option τ.M → Option (List τ.Mem) → Option MemMask →
      Option (CacheEntry τ.KV) → Option Bool →
      τ.V × CacheEntry τ.KV × Option τ.Att

/-- The external capability `Multi_domain_FeedForwardNetwork` (the domain
adapter): `(inputs, domain_mask) -> outputs`, plus the explicit-parameter
variant. -/
structure Multi_domain_FeedForwardNetworkCap (τ : TFTypes) where
  call : τ.V → τ.DM → τ.V
  forward_fn : τ.V → τ.A → τ.DM → τ.V

/-- The external capability `common.LayerNorm`, with its explicit-parameter
variant. -/
structure LayerNormCap (τ : TFTypes) where
  call : τ.V → τ.V
  forward_fn : τ.V → τ.A → τ.V

/-- The output projection capability (either a caller-provided layer or a
`common.Dense(vocab_size)`), with its explicit-parameter variant. -/
structure OutputLayerCap (τ : TFTypes) where
  call : τ.V → τ.V
  forward_fn : τ.V → τ.A → τ.V

/-- The result of `initialize`: either the caller-supplied `output_layer`
is installed, or a `common.Dense(vocab_size)` projection is constructed. -/
inductive OutputHead (OL : Type) where
  | provided (layer : OL)
  | dense (vocab_size : Nat)
  deriving DecidableEq, Repr

/-- `Multi_domain_SelfAttentionDecoder.initialize(vocab_size, output_layer)`:
if `output_layer` is given it becomes the output head; otherwise a
`ValueError` is raised when `vocab_size` is also absent, else a
`common.Dense(vocab_size)` head is built. -/
def initOutputLayer {OL : Type} (vocab_size : Option Nat) (output_layer : Option OL) :
    Except String (OutputHead OL) :=
  match output_layer with
  | some ol => .ok (.provided ol)
  | none =>
    match vocab_size with
    | none => .error "One of vocab_size and output_layer must be set"
    | some v => .ok (.dense v)

/-- The decoder instance: the fields of `Multi_domain_SelfAttentionDecoder`
set in `__init__` (plus the output layer installed by `initialize`) that its
run-time methods read.  `mask` is the constant domain-mask table
`make_domain_mask(num_domains, num_domain_units)`; the position encoder is
`position_encoder_class()` when that class is not `None`. -/
structure Multi_domain_SelfAttentionDecoder (τ : TFTypes) where
  num_units : Nat
  num_heads : Nat
  num_sources : Nat
  dropout : τ.R
  position_encoder : Option (τ.V → Option Nat → τ.V)
  layer_norm : LayerNormCap τ
  layers : List (SelfAttentionDecoderLayerCap τ)
  mask : τ.DMT
  multi_domain_layers : List (Multi_domain_FeedForwardNetworkCap τ)
  output_layer : OutputLayerCap τ

namespace Multi_domain_SelfAttentionDecoder

variable {τ : TFTypes}

/-- `_get_initial_state(batch_size, dtype, initial_state)`: one cache entry
per decoder layer, each with `self_kv` a pair of zero tensors of shape
`[batch_size, num_heads, 0, num_units // num_heads]` and `memory_kv` a list
of `num_sources` such pairs; `initial_state` is discarded. -/
def _get_initial_state {I : Type} (ops : TFOps τ)
    (self : Multi_domain_SelfAttentionDecoder τ)
    (batch_size : Nat) (dtype : τ.Dtype) (initial_state : Option I) :
    List (CacheEntry τ.KV) :=
  let _ := initial_state
  self.layers.map (fun _ =>
    let shape := [batch_size, self.num_heads, 0, self.num_units / self.num_heads]
    let self_kv := (ops.zeros shape dtype, ops.zeros shape dtype)
    let memory_kv := List.replicate self.num_sources
      (ops.zeros shape dtype, ops.zeros shape dtype)
    { self_kv := self_kv, memory_kv := memory_kv })

/-- Lines 98–105 of `_run` (and, textually identical, lines 235–242 of
`_run_forward_fn`): the causal query mask is `None` when a `step` position is
given; otherwise it is `transformer.future_mask(sequence_length,
maximum_length)` with `maximum_length = tf.shape(inputs)[1]` and
`sequence_length` defaulted to `tf.fill([batch_size], maximum_length)` when
omitted. -/
def prepare_query_mask (ops : TFOps τ) (step : Option Nat)
    (sequence_length : Option (List Nat)) (inputs : τ.V) : Option τ.M :=
  match step with
  | some _ => none
  | none =>
    let maximum_length := ops.dim1 inputs
    let seq_len := match sequence_length with
      | none => List.replicate (ops.dim0 inputs) maximum_length
      | some sl => sl
    some (ops.future_mask seq_len maximum_length)

/-- Lines 107–117 of `_run` (and, textually identical, lines 244–254 of
`_run_forward_fn`): a non-list `memory` is wrapped into a one-element tuple;
when `memory_sequence_length` is given (likewise normalized), one
`tf.sequence_mask(mem_length, maxlen=tf.shape(mem)[1])` is built per
`zip(memory, memory_sequence_length)` pair; `zip(None, ...)` — lengths given
but no memory — raises a `TypeError`. -/
def prepare_memory_mask (ops : TFOps τ) (memory : Option (TensorOrList τ.Mem))
    (memory_sequence_length : Option (TensorOrList (List Nat))) :
    Except String (Option (List τ.Mem) × Option MemMask) :=
  let memory' : Option (List τ.Mem) := match memory with
    | none => none
    | some (.single m) => some [m]
    | some (.seq ms) => some ms
  match memory_sequence_length with
  | none => .ok (memory', none)
  | some msl =>
    let lens : List (List Nat) := match msl with
      | .single l => [l]
      | .seq ls => ls
    match memory' with
    | none => .error "TypeError: zip argument #1 must support iteration"
    | some mems => .ok (memory', some ((mems.zip lens).map
        (fun p => sequence_mask p.2 (ops.mem_dim1 p.1))))

/-- The layer loop of `_run` (lines 119–132): for each
`(layer, multi_domain_layer)` pair of `zip(self.layers,
self.multi_domain_layers)` in order, call the attention layer with the
current hidden states and `cache[i]` (an `IndexError` when the cache list is
too short), append the returned layer cache, then add the domain adapter's
output residually.  The third component tracks the Python loop variable
`attention`: `none` when the loop body never ran (so line 135 would raise a
`NameError`), otherwise the last layer's attention value. -/
def runLayers (ops : TFOps τ) :
    List (SelfAttentionDecoderLayerCap τ × Multi_domain_FeedForwardNetworkCap τ) →
    τ.V → Option τ.M → Option (List τ.Mem) → Option MemMask →
    Option (List (CacheEntry τ.KV)) → τ.DM → Option Bool →
    Except String (τ.V × List (CacheEntry τ.KV) × Option (Option τ.Att))
  | [], inputs, _, _, _, _, _, _ => .ok (inputs, [], none)
  | (layer, multi_domain_layer) :: rest, inputs, mask, memory, memory_mask,
      cache, domain_mask, training =>
    match (match cache with
           | none => Except.ok (none : Option (CacheEntry τ.KV))
           | some [] => Except.error "IndexError: list index out of range"
           | some (c :: _) => Except.ok (some c)) with
    | .error e => .error e
    | .ok layer_cache_arg =>
      -- r = (updated hidden states, this layer's cache, attention)
      let r := layer.call inputs mask memory memory_mask layer_cache_arg training
      let inputs2 := ops.add (multi_domain_layer.call r.1 domain_mask) r.1
      match runLayers ops rest inputs2 mask memory memory_mask
          (cache.map (List.drop 1)) domain_mask training with
      | .error e => .error e
      | .ok rr => .ok (rr.1, r.2.1 :: rr.2.1, some (rr.2.2.getD r.2.2))

/-- The layer loop of `_run_forward_fn` (lines 256–270): as `runLayers`, but
every sub-layer is invoked through its explicit-parameter `forward_fn` entry
point with the external bundle `args_dict`. -/
def runLayersFF (ops : TFOps τ) (args_dict : τ.A) :
    List (SelfAttentionDecoderLayerCap τ × Multi_domain_FeedForwardNetworkCap τ) →
    τ.V → Option τ.M → Option (List τ.Mem) → Option MemMask →
    Option (List (CacheEntry τ.KV)) → τ.DM → Option Bool →
    Except String (τ.V × List (CacheEntry τ.KV) × Option (Option τ.Att))
  | [], inputs, _, _, _, _, _, _ => .ok (inputs, [], none)
  | (layer, multi_domain_layer) :: rest, inputs, mask, memory, memory_mask,
      cache, domain_mask, training =>
    match (match cache with
           | none => Except.ok (none : Option (CacheEntry τ.KV))
           | some [] => Except.error "IndexError: list index out of range"
           | some (c :: _) => Except.ok (some c)) with
    | .error e => .error e
    | .ok layer_cache_arg =>
      -- r = (updated hidden states, this layer's cache, attention)
      let r := layer.forward_fn inputs args_dict mask memory memory_mask
        layer_cache_arg training
      let inputs2 := ops.add (multi_domain_layer.forward_fn r.1 args_dict domain_mask) r.1
      match runLayersFF ops args_dict rest inputs2 mask memory memory_mask
          (cache.map (List.drop 1)) domain_mask training with
      | .error e => .error e
      | .ok rr => .ok (rr.1, r.2.1 :: rr.2.1, some (rr.2.2.getD r.2.2))

/-- `_run` (lines 81–135): look up the domain mask for the batch, scale the
embedded inputs by `num_units ** 0.5`, apply the position encoder (at
position `step + 1` in step mode, over the whole sequence otherwise), apply
dropout, build the causal and memory masks, run every layer (attention, then
residual domain adapter), and apply the final layer normalization once. -/
def _run (ops : TFOps τ) (self : Multi_domain_SelfAttentionDecoder τ)
    (inputs : τ.V × τ.Dom) (sequence_length : Option (List Nat))
    (cache : Option (List (CacheEntry τ.KV)))
    (memory : Option (TensorOrList τ.Mem))
    (memory_sequence_length : Option (TensorOrList (List Nat)))
    (step : Option Nat) (training : Option Bool) :
    Except String (τ.V × List (CacheEntry τ.KV) × Option τ.Att) :=
  let domain := inputs.2
  let domain_mask := ops.embedding_lookup self.mask domain
  let inputs1 := ops.scale inputs.1 self.num_units
  let inputs2 := match self.position_encoder with
    | some position_encoder => position_encoder inputs1 (step.map (fun s => s + 1))
    | none => inputs1
  let inputs3 := ops.dropout inputs2 self.dropout training
  let mask := prepare_query_mask ops step sequence_length inputs3
  match prepare_memory_mask ops memory memory_sequence_length with
  | .error e => .error e
  | .ok pm =>
    -- pm = (normalized memory, memory mask); r = (outputs, new cache, attention)
    match runLayers ops (self.layers.zip self.multi_domain_layers) inputs3 mask
        pm.1 pm.2 cache domain_mask training with
    | .error e => .error e
    | .ok r =>
      match r.2.2 with
      | none => .error "NameError: name 'attention' is not defined"
      | some attention => .ok (self.layer_norm.call r.1, r.2.1, attention)

/-- `_run_forward_fn` (lines 218–273): identical control flow to `_run`
(the preprocessing and mask construction lines are textually identical in
the source), but the layer stack, the domain adapters and the final layer
normalization are invoked through their `forward_fn` entry points with the
external bundle `args_dict`. -/
def _run_forward_fn (ops : TFOps τ) (self : Multi_domain_SelfAttentionDecoder τ)
    (inputs : τ.V × τ.Dom) (args_dict : τ.A) (sequence_length : Option (List Nat))
    (cache : Option (List (CacheEntry τ.KV)))
    (memory : Option (TensorOrList τ.Mem))
    (memory_sequence_length : Option (TensorOrList (List Nat)))
    (step : Option Nat) (training : Option Bool) :
    Except String (τ.V × List (CacheEntry τ.KV) × Option τ.Att) :=
  let domain := inputs.2
  let domain_mask := ops.embedding_lookup self.mask domain
  let inputs1 := ops.scale inputs.1 self.num_units
  let inputs2 := match self.position_encoder with
    | some position_encoder => position_encoder inputs1 (step.map (fun s => s + 1))
    | none => inputs1
  let inputs3 := ops.dropout inputs2 self.dropout training
  let mask := prepare_query_mask ops step sequence_length inputs3
  match prepare_memory_mask ops memory memory_sequence_length with
  | .error e => .error e
  | .ok pm =>
    -- pm = (normalized memory, memory mask); r = (outputs, new cache, attention)
    match runLayersFF ops args_dict (self.layers.zip self.multi_domain_layers)
        inputs3 mask pm.1 pm.2 cache domain_mask training with
    | .error e => .error e
    | .ok r =>
      match r.2.2 with
      | none => .error "NameError: name 'attention' is not defined"
      | some attention =>
        .ok (self.layer_norm.forward_fn r.1 args_dict, r.2.1, attention)

/-- `forward` (lines 137–157): discard `initial_state` and `input_fn`, raise
a `ValueError` when `sampling_probability` is not `None`, run `_run` in
full-sequence mode (no cache, no step), and project the output through the
output layer. -/
def forward {S F SP : Type} (ops : TFOps τ)
    (self : Multi_domain_SelfAttentionDecoder τ) (inputs : τ.V × τ.Dom)
    (sequence_length : Option (List Nat)) (initial_state : Option S)
    (memory : Option (TensorOrList τ.Mem))
    (memory_sequence_length : Option (TensorOrList (List Nat)))
    (input_fn : Option F) (sampling_probability : Option SP)
    (training : Option Bool) :
    Except String (τ.V × List (CacheEntry τ.KV) × Option τ.Att) :=
  let _ := initial_state
  let _ := input_fn
  match sampling_probability with
  | some _ => .error "Scheduled sampling is not supported by this decoder"
  | none =>
    match _run ops self inputs sequence_length none memory
        memory_sequence_length none training with
    | .error e => .error e
    | .ok r => .ok (self.output_layer.call r.1, r.2.1, r.2.2)

/-- `forward_fn` (lines 159–181): as `forward`, but routing through
`_run_forward_fn` and the output layer's `forward_fn` with the external
bundle `args_dict`. -/
def forward_fn {S F SP : Type} (ops : TFOps τ)
    (self : Multi_domain_SelfAttentionDecoder τ) (inputs : τ.V × τ.Dom)
    (args_dict : τ.A) (sequence_length : Option (List Nat))
    (initial_state : Option S) (memory : Option (TensorOrList τ.Mem))
    (memory_sequence_length : Option (TensorOrList (List Nat)))
    (input_fn : Option F) (sampling_probability : Option SP)
    (training : Option Bool) :
    Except String (τ.V × List (CacheEntry τ.KV) × Option τ.Att) :=
  let _ := initial_state
  let _ := input_fn
  match sampling_probability with
  | some _ => .error "Scheduled sampling is not supported by this decoder"
  | none =>
    match _run_forward_fn ops self inputs args_dict sequence_length none memory
        memory_sequence_length none training with
    | .error e => .error e
    | .ok r => .ok (self.output_layer.forward_fn r.1 args_dict, r.2.1, r.2.2)

/-- `step` (lines 183–202): expand the single-timestep input to a length-1
time dimension, run `_run` with the provided cache and `step=timestep`,
squeeze the time dimension out of the output, and squeeze the attention when
it is not `None`. -/
def step (ops : TFOps τ) (self : Multi_domain_SelfAttentionDecoder τ)
    (inputs : τ.U × τ.Dom) (timestep : Nat)
    (state : Option (List (CacheEntry τ.KV)))
    (memory : Option (TensorOrList τ.Mem))
    (memory_sequence_length : Option (TensorOrList (List Nat)))
    (training : Option Bool) :
    Except String (τ.U × List (CacheEntry τ.KV) × Option τ.AttU) :=
  let inputs' := (ops.expand_dims1 inputs.1, inputs.2)
  match _run ops self inputs' none state memory memory_sequence_length
      (some timestep) training with
  | .error e => .error e
  | .ok r =>
    let outputs' := ops.squeeze1 r.1
    let attention' := match r.2.2 with
      | none => none
      | some a => some (ops.att_squeeze1 a)
    .ok (outputs', r.2.1, attention')

/-- The layer composition as §4.2 of the spec states it, with the cache
entry for each layer supplied alongside the layer: invoke the attention
sub-layer first (consuming this layer's cache entry, producing the new cache
entry and the attention), then apply the domain adapter to the attention
output and add it residually; the attention reported is the last layer's.
This is the spec-side composition against which the translated loop
`runLayers` is compared. -/
def stackSpec (ops : TFOps τ) :
    List ((SelfAttentionDecoderLayerCap τ × Multi_domain_FeedForwardNetworkCap τ) ×
      Option (CacheEntry τ.KV)) →
    τ.V → Option τ.M → Option (List τ.Mem) → Option MemMask → τ.DM → Option Bool →
    τ.V × List (CacheEntry τ.KV) × Option (Option τ.Att)
  | [], x, _, _, _, _, _ => (x, [], none)
  | ((layer, adapter), centry) :: rest, x, mask, memory, memory_mask, dm, tr =>
    -- r = (updated hidden states, this layer's cache, attention)
    let r := layer.call x mask memory memory_mask centry tr
    let x2 := ops.add (adapter.call r.1 dm) r.1
    let rr := stackSpec ops rest x2 mask memory memory_mask dm tr
    (rr.1, r.2.1 :: rr.2.1, some (rr.2.2.getD r.2.2))

end Multi_domain_SelfAttentionDecoder

section NatModel

/-- A concrete instantiation of the tensor model over `Nat`, used to
evaluate the development on explicit inputs. -/
@[reducible] def natTypes : TFTypes :=
  { V := Nat, U := Nat, M := Nat, Mem := Nat, Att := Nat, AttU := Nat,
    Dom := Nat, DMT := Nat, DM := Nat, A := Nat, KV := Nat, Dtype := Nat,
    R := Nat }

/-- Concrete ambient operations over `natTypes`. -/
def natOps : TFOps natTypes :=
  { embedding_lookup := fun t d => t + d
    scale := fun v n => v * n + 1
    add := fun a b => a + b
    dropout := fun v r _ => v + r
    dim0 := fun _ => 2
    dim1 := fun v => v % 4 + 1
    mem_dim1 := fun m => m % 3 + 1
    future_mask := fun lens maxlen => lens.sum * 10 + maxlen
    expand_dims1 := fun u => u + 50
    squeeze1 := fun v => v + 7
    att_squeeze1 := fun a => a + 3
    zeros := fun sh dt => sh.sum + dt }

/-- A concrete attention layer capability over `natTypes` whose output
depends on every argument it receives; its `forward_fn` ignores the bundle
and behaves like `call`. -/
def natLayer (k : Nat) : SelfAttentionDecoderLayerCap natTypes :=
  { call := fun x m mem mm c tr =>
      let mv : Nat := match m with | none => 0 | some mv => mv
      let memv : Nat := match mem with | none => 0 | some l => List.sum l
      let mmv : Nat := match mm with | none => 0 | some l => l.length
      let cv : Nat := match c with | none => 0 | some ce => ce.self_kv.1
      let tv : Nat := match tr with | none => 0 | some b => if b then 1 else 0
      (x * 2 + k + mv + memv + mmv + cv + tv,
       { self_kv := (x + k, x), memory_kv := [(k, mv)] },
       some (x + 100 + k))
    forward_fn := fun x _ m mem mm c tr =>
      let mv : Nat := match m with | none => 0 | some mv => mv
      let memv : Nat := match mem with | none => 0 | some l => List.sum l
      let mmv : Nat := match mm with | none => 0 | some l => l.length
      let cv : Nat := match c with | none => 0 | some ce => ce.self_kv.1
      let tv : Nat := match tr with | none => 0 | some b => if b then 1 else 0
      (x * 2 + k + mv + memv + mmv + cv + tv,
       { self_kv := (x + k, x), memory_kv := [(k, mv)] },
       some (x + 100 + k)) }

/-- A concrete domain adapter over `natTypes`; `forward_fn` ignores the
bundle and behaves like `call`. -/
def natAdapter (k : Nat) : Multi_domain_FeedForwardNetworkCap natTypes :=
  { call := fun x dm => x * 3 + dm + k
    forward_fn := fun x _ dm => x * 3 + dm + k }

/-- A concrete layer normalization over `natTypes`. -/
def natNorm : LayerNormCap natTypes :=
  { call := fun x => x * 5 + 1, forward_fn := fun x _ => x * 5 + 1 }

/-- A concrete output projection over `natTypes`. -/
def natOut : OutputLayerCap natTypes :=
  { call := fun x => x * 7 + 2, forward_fn := fun x _ => x * 7 + 2 }

/-- A concrete two-layer decoder over `natTypes`. -/
def natDecoder : Multi_domain_SelfAttentionDecoder natTypes :=
  { num_units := 4, num_heads := 2, num_sources := 1, dropout := 3,
    position_encoder := some (fun v p => v + (match p with | none => 11 | some t => t)),
    layer_norm := natNorm,
    layers := [natLayer 1, natLayer 2],
    mask := 5,
    multi_domain_layers := [natAdapter 1, natAdapter 2],
    output_layer := natOut }

end NatModel

section ListModel

/-!
A second instantiation of the tensor model in which a sequence-shaped tensor
is the time-major list of its positions.  The external attention layer, the
position encoder, the adapters and the normalizations are repository code
that is not under `src/` (`layers/transformer.py`, `layers/layers.py`,
`layers/common.py`, and the `opennmt` position encoder), so their behavior
is modelled from the spec here; the decoder composition itself
(`_run`, `forward`, `step`) is the translated code above.
-/

variable {E AttE MemT MM DomT DMTT DMM AT KV DT RT : Type}

/-- Tensor carriers for the list model: a `[batch, time, depth]` tensor is
the list of its `time` slices, a single-step tensor is one slice. -/
@[reducible] def listTypes (E AttE MemT MM DomT DMTT DMM AT KV DT RT : Type) : TFTypes :=
  { V := List E, U := E, M := MM, Mem := MemT, Att := List AttE, AttU := AttE,
    Dom := DomT, DMT := DMTT, DM := DMM, A := AT, KV := KV, Dtype := DT,
    R := RT }

/-- The list-model ambient operations: scaling, dropout act per position,
tensor addition is positionwise, `dim1` is the time length,
`tf.expand_dims(x, 1)` makes a one-position sequence and `tf.squeeze(x, 1)`
extracts it. -/
def listOps (scaleE : Nat → E → E) (dropE : RT → Option Bool → E → E)
    (addE : E → E → E) (lookupE : DMTT → DomT → DMM) (memDim : MemT → Nat)
    (fmk : List Nat → Nat → MM) (zerosE : List Nat → DT → KV) (batch : Nat)
    [Inhabited E] [Inhabited AttE] :
    TFOps (listTypes E AttE MemT MM DomT DMTT DMM AT KV DT RT) :=
  { embedding_lookup := lookupE
    scale := fun l n => l.map (scaleE n)
    add := fun l1 l2 => List.zipWith addE l1 l2
    dropout := fun l r tr => l.map (dropE r tr)
    dim0 := fun _ => batch
    dim1 := fun l => l.length
    mem_dim1 := memDim
    future_mask := fmk
    expand_dims1 := fun e => [e]
    squeeze1 := fun l => l.headD default
    att_squeeze1 := fun l => l.headD default
    zeros := zerosE }

/-- Modelled from the spec: the position encoder capability
(`SinusoidalPositionEncoder`, not under `src/`) "adds positional signal
(absolute position if incremental, full sequence if batch)": with an
explicit position `t` it encodes every given slice at position `t`; with no
position it encodes slice `i` (0-based) at position `i + 1`. -/
def seqPositionEncoder (pencE : Nat → E → E) : List E → Option Nat → List E :=
  fun l p =>
    match p with
    | some t => l.map (pencE t)
    | none => l.enum.map (fun ie => pencE (ie.1 + 1) ie.2)

/-- The single-position semantics of an attention sub-layer: one query
position, the memory and memory mask, the accumulated cache entry and the
training flag give the output position, the grown cache entry, and this
position's attention. -/
def StepFn (E MemT KV AttE : Type) : Type :=
  E → Option (List MemT) → Option MemMask → CacheEntry KV → Option Bool →
    E × CacheEntry KV × AttE

/-- Run a single-position attention semantics over a list of positions,
threading the cache entry, and collect outputs and attentions. -/
def scanStep (stepf : StepFn E MemT KV AttE) :
    List E → Option (List MemT) → Option MemMask → CacheEntry KV → Option Bool →
    List E × CacheEntry KV × List AttE
  | [], _, _, c, _ => ([], c, [])
  | x :: xs, mem, mm, c, tr =>
    -- r = (this position's output, grown cache, attention)
    let r := stepf x mem mm c tr
    let rr := scanStep stepf xs mem mm r.2.1 tr
    (r.1 :: rr.1, rr.2.1, r.2.2 :: rr.2.2)

/-- Modelled from the spec: the attention sub-layer capability
(`transformer.SelfAttentionDecoderLayer`, not under `src/`).  Per §4.2 and
§6 of the spec it consumes the (possibly empty) cache entry, appends this
call's key/value projections, and — the causal-attention contract — its
full-sequence invocation under the causal mask coincides with running its
positions sequentially against the accumulated cache, an empty cache
(`cache=None`) starting from the zero-length initial entry `c0`. -/
def seqAttentionLayer (stepf : StepFn E MemT KV AttE) (c0 : CacheEntry KV) :
    SelfAttentionDecoderLayerCap (listTypes E AttE MemT MM DomT DMTT DMM AT KV DT RT) :=
  { call := fun xs _mask mem mm cache tr =>
      let r := scanStep stepf xs mem mm (cache.getD c0) tr
      (r.1, r.2.1, some r.2.2)
    forward_fn := fun xs _ _mask mem mm cache tr =>
      let r := scanStep stepf xs mem mm (cache.getD c0) tr
      (r.1, r.2.1, some r.2.2) }

/-- Modelled from the spec: the domain adapter capability
(`Multi_domain_FeedForwardNetwork`, not under `src/`) is a gated
feed-forward network, §4.1: it maps hidden states `[batch, time, width]` to
an output of the same shape, acting on each time position independently. -/
def pointwiseAdapter (adE : DMM → E → E) :
    Multi_domain_FeedForwardNetworkCap (listTypes E AttE MemT MM DomT DMTT DMM AT KV DT RT) :=
  { call := fun l dm => l.map (adE dm)
    forward_fn := fun l _ dm => l.map (adE dm) }

/-- The cache entry built by `_get_initial_state` for given construction
parameters: zero-length `self_kv` and `num_sources` zero-length
`memory_kv` pairs. -/
def initialEntry (zerosE : List Nat → DT → KV)
    (batch num_heads num_units num_sources : Nat) (dtype : DT) : CacheEntry KV :=
  let sh := [batch, num_heads, 0, num_units / num_heads]
  { self_kv := (zerosE sh dtype, zerosE sh dtype),
    memory_kv := List.replicate num_sources (zerosE sh dtype, zerosE sh dtype) }

/-- A list-model decoder whose attention layers are sequence-coherent
(`seqAttentionLayer`, starting from the `_get_initial_state` entry for
`batch`/`dtype`), whose adapters, final normalization and output projection
act per position, and whose position encoder is `seqPositionEncoder`. -/
def mkSeqDecoder (num_units num_heads num_sources : Nat) (rate : RT)
    (pencE : Nat → E → E) (normE : E → E) (outE : E → E)
    (stepfs : List (StepFn E MemT KV AttE)) (adEs : List (DMM → E → E))
    (dmt : DMTT) (zerosE : List Nat → DT → KV) (batch : Nat) (dtype : DT) :
    Multi_domain_SelfAttentionDecoder (listTypes E AttE MemT MM DomT DMTT DMM AT KV DT RT) :=
  { num_units := num_units, num_heads := num_heads, num_sources := num_sources,
    dropout := rate,
    position_encoder := some (seqPositionEncoder pencE),
    layer_norm := { call := fun l => l.map normE, forward_fn := fun l _ => l.map normE },
    layers := stepfs.map (fun sf =>
      seqAttentionLayer sf (initialEntry zerosE batch num_heads num_units num_sources dtype)),
    mask := dmt,
    multi_domain_layers := adEs.map pointwiseAdapter,
    output_layer := { call := fun l => l.map outE, forward_fn := fun l _ => l.map outE } }

/-- Whole-stack, full-sequence reference semantics for the list model: each
layer scans the whole sequence from its cache entry (`cs.headD c0`, i.e.
`c0` when no entry is supplied), then its adapter output is added
residually per position; returns the final sequence, the per-layer final
cache entries, and the last layer's attentions. -/
def runStack (addE : E → E → E) (mem : Option (List MemT)) (mm : Option MemMask)
    (dm : DMM) (tr : Option Bool) (c0 : CacheEntry KV) :
    List (StepFn E MemT KV AttE × (DMM → E → E)) → List E → List (CacheEntry KV) →
    List E × List (CacheEntry KV) × Option (List AttE)
  | [], zs, _ => (zs, [], none)
  | (sf, ad) :: rest, zs, cs =>
    -- r = (layer outputs, final cache entry, attentions)
    let r := scanStep sf zs mem mm (cs.headD c0) tr
    let ws := r.1.map (fun y => addE (ad dm y) y)
    let rr := runStack addE mem mm dm tr c0 rest ws cs.tail
    (rr.1, r.2.1 :: rr.2.1, some (rr.2.2.getD r.2.2))

/-- Time-major iteration of `runStack`: feed the positions one at a time,
threading the per-layer caches, and concatenate the outputs. -/
def iterStack (addE : E → E → E) (mem : Option (List MemT)) (mm : Option MemMask)
    (dm : DMM) (tr : Option Bool) (c0 : CacheEntry KV)
    (pairs : List (StepFn E MemT KV AttE × (DMM → E → E))) :
    List E → List (CacheEntry KV) → List E × List (CacheEntry KV)
  | [], cs => ([], cs)
  | z :: zs, cs =>
    let r := runStack addE mem mm dm tr c0 pairs [z] cs
    let rr := iterStack addE mem mm dm tr c0 pairs zs r.2.1
    (r.1 ++ rr.1, rr.2)

/-- The preprocessing of `_run` applied per position: position `n` (0-based)
holds `f n x`. -/
def preSeq (f : Nat → E → E) : List E → Nat → List E
  | [], _ => []
  | x :: xs, n => f n x :: preSeq f xs (n + 1)

/-- The cache list effectively seen by the layer stack: a `cache=None` run
starts every layer from the zero-length entry, which `runStack` encodes as
the empty cache list. -/
def csOf {KV : Type} : Option (List (CacheEntry KV)) → List (CacheEntry KV)
  | none => []
  | some cs => cs

end ListModel

section C2WitnessModel

/-- A concrete single-position attention semantics over `Nat` carriers whose
output and cache depend on the accumulated cache, so the batch/incremental
equivalence is exercised nontrivially. -/
def wStepF1 : StepFn Nat Nat Nat Nat :=
  fun e mem mm c tr =>
    let mv : Nat := match mem with | none => 0 | some l => l.sum
    let mmv : Nat := match mm with | none => 0 | some l => l.length
    let tv : Nat := match tr with | none => 0 | some b => if b then 1 else 0
    (e + c.self_kv.1 + mv + mmv + tv,
     { self_kv := (c.self_kv.1 + e, c.self_kv.2 + 1), memory_kv := c.memory_kv },
     e * 2)

/-- A second concrete single-position attention semantics over `Nat`. -/
def wStepF2 : StepFn Nat Nat Nat Nat :=
  fun e _ _ c _ =>
    (e * 2 + c.self_kv.2,
     { self_kv := (c.self_kv.1 + 3, c.self_kv.2 + e), memory_kv := c.memory_kv },
     e + 1)

/-- Concrete list-model operations over `Nat` carriers. -/
def wOps : TFOps (listTypes Nat Nat Nat Nat Nat Nat Nat Nat Nat Nat Nat) :=
  listOps (fun n e => e * n) (fun r _ e => e + r) (fun a b => a + b)
    (fun t d => t * 100 + d) (fun m => m % 3 + 1) (fun l m => l.sum + m)
    (fun sh dt => sh.sum + dt) 2

/-- A concrete two-layer sequence-coherent decoder over `Nat` carriers. -/
def wDecoder : Multi_domain_SelfAttentionDecoder
    (listTypes Nat Nat Nat Nat Nat Nat Nat Nat Nat Nat Nat) :=
  mkSeqDecoder 4 2 1 1 (fun t e => e * 10 + t) (fun e => e + 1000)
    (fun e => e * 2 + 1) [wStepF1, wStepF2]
    [fun dm e => e + dm, fun dm e => 2 * e + dm] 1 (fun sh dt => sh.sum + dt) 2 7

end C2WitnessModel

/-- Modelled from the spec: the incremental decode loop of §4.4 — run
`step` once per known position, with the explicit timestep counting up from
the given start and the cache threaded from call to call; collect the
single-position outputs and the final cache. -/
def stepDecodeFrom {τ : TFTypes} (ops : TFOps τ)
    (self : Multi_domain_SelfAttentionDecoder τ) (dom : τ.Dom)
    (memory : Option (TensorOrList τ.Mem))
    (memory_sequence_length : Option (TensorOrList (List Nat)))
    (training : Option Bool) :
    List τ.U → Nat → List (CacheEntry τ.KV) →
    Except String (List τ.U × List (CacheEntry τ.KV))
  | [], _, state => .ok ([], state)
  | x :: xs, t, state =>
    match Multi_domain_SelfAttentionDecoder.step ops self (x, dom) t (some state)
        memory memory_sequence_length training with
    | .error e => .error e
    | .ok r =>
      match stepDecodeFrom ops self dom memory memory_sequence_length training
          xs (t + 1) r.2.1 with
      | .error e => .error e
      | .ok rr => .ok (r.1 :: rr.1, rr.2)

/-! ### Helper lemmas -/

namespace Multi_domain_SelfAttentionDecoder

variable {τ : TFTypes}

/-- `(l.zip l').map (fun p => f p.1 p.2)` is `zipWith`. -/
theorem zip_map_eq_zipWith {α β γ : Type} (f : α → β → γ) :
    ∀ (l1 : List α) (l2 : List β),
      (l1.zip l2).map (fun p => f p.1 p.2) = List.zipWith f l1 l2
  | [], _ => by simp
  | _ :: _, [] => by simp
  | a :: l1, b :: l2 => by
    simp only [List.zip_cons_cons, List.map_cons, List.zipWith_cons_cons]
    exact congrArg _ (zip_map_eq_zipWith f l1 l2)

/-- `getD` of a mapped list, inside the bounds. -/
theorem getD_map_of_lt {α β : Type} (f : α → β) (a0 : α) (d : β) :
    ∀ (l : List α) (j : Nat), j < l.length → (l.map f).getD j d = f (l.getD j a0)
  | [], j, h => by simp at h
  | x :: l, 0, _ => rfl
  | x :: l, j + 1, h => by
    simpa using getD_map_of_lt f a0 d l j (by simpa using h)

/-- `runLayers` does not read the `future_mask` operation. -/
theorem runLayers_update_future_mask (ops : TFOps τ) (fm : List Nat → Nat → τ.M) :
    ∀ (pairs : List (SelfAttentionDecoderLayerCap τ × Multi_domain_FeedForwardNetworkCap τ))
      (x : τ.V) (mask : Option τ.M) (mem : Option (List τ.Mem)) (mm : Option MemMask)
      (cache : Option (List (CacheEntry τ.KV))) (dm : τ.DM) (tr : Option Bool),
      runLayers { ops with future_mask := fm } pairs x mask mem mm cache dm tr =
        runLayers ops pairs x mask mem mm cache dm tr
  | [], x, mask, mem, mm, cache, dm, tr => rfl
  | (layer, mdl) :: rest, x, mask, mem, mm, cache, dm, tr => by
    have hadd : ({ ops with future_mask := fm } : TFOps τ).add = ops.add := rfl
    simp only [runLayers, hadd, runLayers_update_future_mask ops fm rest]

/-- In step mode, `_run` does not read the `future_mask` operation. -/
theorem _run_update_future_mask_step (ops : TFOps τ) (fm : List Nat → Nat → τ.M)
    (self : Multi_domain_SelfAttentionDecoder τ) (inputs : τ.V × τ.Dom)
    (sl : Option (List Nat)) (cache : Option (List (CacheEntry τ.KV)))
    (mem : Option (TensorOrList τ.Mem))
    (msl : Option (TensorOrList (List Nat))) (t : Nat) (tr : Option Bool) :
    _run { ops with future_mask := fm } self inputs sl cache mem msl (some t) tr =
      _run ops self inputs sl cache mem msl (some t) tr := by
  have hpm : prepare_memory_mask { ops with future_mask := fm } mem msl =
      prepare_memory_mask ops mem msl := rfl
  have hsc : ({ ops with future_mask := fm } : TFOps τ).scale = ops.scale := rfl
  have hdr : ({ ops with future_mask := fm } : TFOps τ).dropout = ops.dropout := rfl
  have hel : ({ ops with future_mask := fm } : TFOps τ).embedding_lookup =
      ops.embedding_lookup := rfl
  simp only [_run, prepare_query_mask, hpm, hsc, hdr, hel,
    runLayers_update_future_mask ops fm]

/-- Under a bundle pointwise equal to the owned parameters, the
explicit-parameter layer loop agrees with the owned-parameter loop. -/
theorem runLayersFF_eq_runLayers (ops : TFOps τ) (ad : τ.A) :
    ∀ (pairs : List (SelfAttentionDecoderLayerCap τ × Multi_domain_FeedForwardNetworkCap τ)),
      (∀ p ∈ pairs,
        (∀ x m mem mm c tr, p.1.forward_fn x ad m mem mm c tr = p.1.call x m mem mm c tr) ∧
        (∀ x dm, p.2.forward_fn x ad dm = p.2.call x dm)) →
      ∀ (x : τ.V) (mask : Option τ.M) (mem : Option (List τ.Mem)) (mm : Option MemMask)
        (cache : Option (List (CacheEntry τ.KV))) (dm : τ.DM) (tr : Option Bool),
        runLayersFF ops ad pairs x mask mem mm cache dm tr =
          runLayers ops pairs x mask mem mm cache dm tr := by
  intro pairs
  induction pairs with
  | nil => intro h x mask mem mm cache dm tr; rfl
  | cons p rest ih =>
    intro h x mask mem mm cache dm tr
    obtain ⟨layer, mdl⟩ := p
    have hp1 : ∀ x m mem mm c tr,
        layer.forward_fn x ad m mem mm c tr = layer.call x m mem mm c tr :=
      (h (layer, mdl) (List.mem_cons_self _ _)).1
    have hp2 : ∀ x dm, mdl.forward_fn x ad dm = mdl.call x dm :=
      (h (layer, mdl) (List.mem_cons_self _ _)).2
    have hrest := fun q hq => h q (List.mem_cons_of_mem _ hq)
    simp only [runLayersFF, runLayers, hp1, hp2, ih hrest]

/-- Under a bundle pointwise equal to the owned parameters,
`_run_forward_fn` agrees with `_run`. -/
theorem _run_forward_fn_eq_run (ops : TFOps τ)
    (self : Multi_domain_SelfAttentionDecoder τ) (ad : τ.A)
    (hlayer : ∀ L ∈ self.layers, ∀ x m mem mm c tr,
      L.forward_fn x ad m mem mm c tr = L.call x m mem mm c tr)
    (hadapter : ∀ L ∈ self.multi_domain_layers, ∀ x dm,
      L.forward_fn x ad dm = L.call x dm)
    (hnorm : ∀ x, self.layer_norm.forward_fn x ad = self.layer_norm.call x)
    (inputs : τ.V × τ.Dom) (sl : Option (List Nat))
    (cache : Option (List (CacheEntry τ.KV))) (mem : Option (TensorOrList τ.Mem))
    (msl : Option (TensorOrList (List Nat))) (stp : Option Nat) (tr : Option Bool) :
    _run_forward_fn ops self inputs ad sl cache mem msl stp tr =
      _run ops self inputs sl cache mem msl stp tr := by
  have hzip : ∀ q ∈ self.layers.zip self.multi_domain_layers,
      (∀ x m mem mm c tr, q.1.forward_fn x ad m mem mm c tr = q.1.call x m mem mm c tr) ∧
      (∀ x dm, q.2.forward_fn x ad dm = q.2.call x dm) := by
    intro q hq
    obtain ⟨L, M⟩ := q
    obtain ⟨h1, h2⟩ := List.of_mem_zip hq
    exact ⟨hlayer L h1, hadapter M h2⟩
  simp only [_run_forward_fn, _run, runLayersFF_eq_runLayers ops ad _ hzip, hnorm]

/-- The owned-parameter layer loop with no cache agrees with the spec-side
composition `stackSpec` with no cache entries. -/
theorem runLayers_none_eq_stackSpec (ops : TFOps τ) :
    ∀ (pairs : List (SelfAttentionDecoderLayerCap τ × Multi_domain_FeedForwardNetworkCap τ))
      (x : τ.V) (mask : Option τ.M) (mem : Option (List τ.Mem)) (mm : Option MemMask)
      (dm : τ.DM) (tr : Option Bool),
      runLayers ops pairs x mask mem mm none dm tr =
        .ok (stackSpec ops (pairs.map (fun p => (p, none))) x mask mem mm dm tr) := by
  intro pairs
  induction pairs with
  | nil => intros; rfl
  | cons p rest ih =>
    intro x mask mem mm dm tr
    obtain ⟨layer, mdl⟩ := p
    simp only [runLayers, List.map_cons, stackSpec, Option.map_none', ih]

/-- The owned-parameter layer loop with a cache at least as long as the
layer stack agrees with the spec-side composition `stackSpec` fed the cache
entries in order. -/
theorem runLayers_some_eq_stackSpec (ops : TFOps τ) :
    ∀ (pairs : List (SelfAttentionDecoderLayerCap τ × Multi_domain_FeedForwardNetworkCap τ))
      (c : List (CacheEntry τ.KV)), pairs.length ≤ c.length →
      ∀ (x : τ.V) (mask : Option τ.M) (mem : Option (List τ.Mem)) (mm : Option MemMask)
        (dm : τ.DM) (tr : Option Bool),
        runLayers ops pairs x mask mem mm (some c) dm tr =
          .ok (stackSpec ops (pairs.zip (c.map some)) x mask mem mm dm tr) := by
  intro pairs
  induction pairs with
  | nil => intros; rfl
  | cons p rest ih =>
    intro c hc x mask mem mm dm tr
    obtain ⟨layer, mdl⟩ := p
    cases c with
    | nil => simp at hc
    | cons c0 ctail =>
      simp only [runLayers, List.map_cons, List.zip_cons_cons, stackSpec,
        Option.map_some', List.drop_succ_cons, List.drop_zero, List.zip,
        ih ctail (by simpa using hc)]

end Multi_domain_SelfAttentionDecoder

/-! ### Claim theorems -/

section Claims

open Multi_domain_SelfAttentionDecoder

/-- C1: with an external parameter bundle equal in value to the instance's
own parameters — each layer's, adapter's, final normalization's and output
projection's `forward_fn` under `args_dict` agreeing with its owned-parameter
entry point — `forward_fn` returns exactly what `forward` returns (same
logits, same per-layer cache, same attention) for every input batch,
sequence length, memory, memory lengths and training flag. -/
theorem C1_forward_fn_matches_forward {τ : TFTypes} {S F SP : Type}
    (ops : TFOps τ) (self : Multi_domain_SelfAttentionDecoder τ) (args_dict : τ.A)
    (hlayer : ∀ L ∈ self.layers, ∀ x m mem mm c tr,
      L.forward_fn x args_dict m mem mm c tr = L.call x m mem mm c tr)
    (hadapter : ∀ L ∈ self.multi_domain_layers, ∀ x dm,
      L.forward_fn x args_dict dm = L.call x dm)
    (hnorm : ∀ x, self.layer_norm.forward_fn x args_dict = self.layer_norm.call x)
    (hout : ∀ x, self.output_layer.forward_fn x args_dict = self.output_layer.call x)
    (inputs : τ.V × τ.Dom) (sl : Option (List Nat)) (ist : Option S)
    (mem : Option (TensorOrList τ.Mem)) (msl : Option (TensorOrList (List Nat)))
    (ifn : Option F) (sp : Option SP) (tr : Option Bool) :
    forward_fn ops self inputs args_dict sl ist mem msl ifn sp tr =
      forward ops self inputs sl ist mem msl ifn sp tr := by
  cases sp with
  | some p => rfl
  | none =>
    simp only [forward, forward_fn,
      _run_forward_fn_eq_run ops self args_dict hlayer hadapter hnorm, hout]

/-- C3: in `_run` each layer's attention sub-layer runs first, consuming
`cache[i]` and producing that layer's new cache entry and attention; the
layer's domain adapter is then applied to the attention output with the
domain mask and its result added residually; after the last layer exactly
one final layer normalization produces the decoder output.  Stated by
equating `_run` with the spec-shaped composition `stackSpec` followed by a
single `layer_norm`, both for an absent cache and for a supplied cache
covering the stack. -/
theorem C3_attention_adapter_then_single_norm {τ : TFTypes} (ops : TFOps τ)
    (self : Multi_domain_SelfAttentionDecoder τ) (inputs : τ.V × τ.Dom)
    (sl : Option (List Nat)) (mem : Option (TensorOrList τ.Mem))
    (msl : Option (TensorOrList (List Nat))) (stp : Option Nat) (tr : Option Bool)
    (pm : Option (List τ.Mem) × Option MemMask)
    (hm : prepare_memory_mask ops mem msl = .ok pm)
    (x3 : τ.V)
    (hx3 : x3 = ops.dropout (match self.position_encoder with
        | some position_encoder =>
          position_encoder (ops.scale inputs.1 self.num_units) (stp.map (fun s => s + 1))
        | none => ops.scale inputs.1 self.num_units) self.dropout tr) :
    (∀ (v : τ.V) (cs : List (CacheEntry τ.KV)) (a : Option τ.Att),
      stackSpec ops ((self.layers.zip self.multi_domain_layers).map (fun p => (p, none)))
          x3 (prepare_query_mask ops stp sl x3) pm.1 pm.2
          (ops.embedding_lookup self.mask inputs.2) tr = (v, cs, some a) →
        _run ops self inputs sl none mem msl stp tr =
          .ok (self.layer_norm.call v, cs, a)) ∧
    (∀ (c : List (CacheEntry τ.KV)),
      (self.layers.zip self.multi_domain_layers).length ≤ c.length →
      ∀ (v : τ.V) (cs : List (CacheEntry τ.KV)) (a : Option τ.Att),
      stackSpec ops ((self.layers.zip self.multi_domain_layers).zip (c.map some))
          x3 (prepare_query_mask ops stp sl x3) pm.1 pm.2
          (ops.embedding_lookup self.mask inputs.2) tr = (v, cs, some a) →
        _run ops self inputs sl (some c) mem msl stp tr =
          .ok (self.layer_norm.call v, cs, a)) := by
  subst hx3
  constructor
  · intro v cs a hs
    simp only [_run, hm, runLayers_none_eq_stackSpec, hs]
  · intro c hc v cs a hs
    simp only [_run, hm,
      runLayers_some_eq_stackSpec ops (self.layers.zip self.multi_domain_layers) c hc, hs]

/-- C4: a causal (future) mask is built if and only if no step position is
given.  (1) With a step position the query mask preparation yields `None`.
(2) In full-sequence mode it yields `transformer.future_mask` applied to the
per-example lengths — defaulted to the full maximum length for every batch
entry when `sequence_length` is omitted — and the maximum length.  (3) The
`step` entry point (which passes `step=timestep`) passes no causal mask to
any layer: its result does not depend on the `future_mask` operation at
all. -/
theorem C4_causal_mask_iff_full_mode {τ : TFTypes} (ops : TFOps τ)
    (self : Multi_domain_SelfAttentionDecoder τ) :
    (∀ (t : Nat) (sl : Option (List Nat)) (x : τ.V),
      prepare_query_mask ops (some t) sl x = none) ∧
    (∀ (sl : Option (List Nat)) (x : τ.V),
      prepare_query_mask ops none sl x =
        some (ops.future_mask (sl.getD (List.replicate (ops.dim0 x) (ops.dim1 x)))
          (ops.dim1 x))) ∧
    (∀ (fm : List Nat → Nat → τ.M) (inputs : τ.U × τ.Dom) (timestep : Nat)
      (state : Option (List (CacheEntry τ.KV))) (mem : Option (TensorOrList τ.Mem))
      (msl : Option (TensorOrList (List Nat))) (tr : Option Bool),
      step { ops with future_mask := fm } self inputs timestep state mem msl tr =
        step ops self inputs timestep state mem msl tr) := by
  refine ⟨fun t sl x => rfl, fun sl x => ?_, fun fm inputs timestep state mem msl tr => ?_⟩
  · cases sl <;> rfl
  · simp only [step]
    rw [_run_update_future_mask_step ops fm]

/-- C5: a non-null `sampling_probability` makes `forward` (and `forward_fn`)
raise the scheduled-sampling `ValueError` — for every decoder, input and
other arguments, so no layer is consulted and nothing is computed. -/
theorem C5_sampling_probability_error {τ : TFTypes} {S F SP : Type}
    (ops : TFOps τ) (self : Multi_domain_SelfAttentionDecoder τ)
    (inputs : τ.V × τ.Dom) (sl : Option (List Nat)) (ist : Option S)
    (mem : Option (TensorOrList τ.Mem)) (msl : Option (TensorOrList (List Nat)))
    (ifn : Option F) (p : SP) (tr : Option Bool) (ad : τ.A) :
    forward ops self inputs sl ist mem msl ifn (some p) tr =
      .error "Scheduled sampling is not supported by this decoder" ∧
    forward_fn ops self inputs ad sl ist mem msl ifn (some p) tr =
      .error "Scheduled sampling is not supported by this decoder" :=
  ⟨rfl, rfl⟩

/-- C6: `initialize` errs exactly when both `vocab_size` and `output_layer`
are `None`; a supplied `output_layer` is installed regardless of
`vocab_size`; a vocabulary size alone builds a `Dense` projection of that
size. -/
theorem C6_initialize_output_head {OL : Type} :
    (∀ (v : Option Nat) (o : Option OL),
      (∃ e, initOutputLayer v o = .error e) ↔ (v = none ∧ o = none)) ∧
    (∀ (v : Option Nat) (ol : OL),
      initOutputLayer v (some ol) = .ok (.provided ol)) ∧
    (∀ v : Nat, initOutputLayer (some v) (none : Option OL) = .ok (.dense v)) := by
  refine ⟨fun v o => ?_, fun v ol => rfl, fun v => rfl⟩
  cases v <;> cases o <;>
    simp [initOutputLayer]

/-- C7: for every batch size and dtype, `_get_initial_state` returns one
entry per decoder layer, each entry holding a `self_kv` pair of zero tensors
of shape `[batch_size, num_heads, 0, num_units // num_heads]` (zero-length
time axis) and a `memory_kv` list of `num_sources` such pairs;
`initial_state` is ignored. -/
theorem C7_initial_state_shape {τ : TFTypes} {I : Type} (ops : TFOps τ)
    (self : Multi_domain_SelfAttentionDecoder τ) (batch_size : Nat)
    (dtype : τ.Dtype) (ist : Option I) :
    _get_initial_state ops self batch_size dtype ist =
      List.replicate self.layers.length
        { self_kv :=
            (ops.zeros [batch_size, self.num_heads, 0, self.num_units / self.num_heads] dtype,
             ops.zeros [batch_size, self.num_heads, 0, self.num_units / self.num_heads] dtype),
          memory_kv := List.replicate self.num_sources
            (ops.zeros [batch_size, self.num_heads, 0, self.num_units / self.num_heads] dtype,
             ops.zeros [batch_size, self.num_heads, 0, self.num_units / self.num_heads] dtype) } := by
  simp [_get_initial_state, List.map_const']

/-- C8: `step` expands the single-timestep input along a length-1 time
axis, runs the full stack `_run` with the provided cache and
`step=timestep`, then squeezes the output's time axis and — only when the
attention is not `None` — the attention's. -/
theorem C8_step_expand_run_squeeze {τ : TFTypes} (ops : TFOps τ)
    (self : Multi_domain_SelfAttentionDecoder τ) (inputs : τ.U × τ.Dom)
    (timestep : Nat) (state : Option (List (CacheEntry τ.KV)))
    (mem : Option (TensorOrList τ.Mem)) (msl : Option (TensorOrList (List Nat)))
    (tr : Option Bool) :
    step ops self inputs timestep state mem msl tr =
      match _run ops self (ops.expand_dims1 inputs.1, inputs.2) none state mem msl
          (some timestep) tr with
      | .error e => .error e
      | .ok (o, s, a) => .ok (ops.squeeze1 o, s, Option.map ops.att_squeeze1 a) := by
  simp only [step]
  cases _run ops self (ops.expand_dims1 inputs.1, inputs.2) none state mem msl
      (some timestep) tr with
  | error e => rfl
  | ok r =>
    obtain ⟨o, s, a⟩ := r
    cases a <;> rfl

/-- C9: when `memory_sequence_length` is absent the memory mask is `None`
even if memory is present; when it is provided (one length tensor per
source) the mask is, per source, `tf.sequence_mask` of that source's
lengths up to that source's time dimension, with entry `j` of a row `true`
exactly at the valid positions `j < length`. -/
theorem C9_memory_mask {τ : TFTypes} (ops : TFOps τ) :
    (∀ mem : Option (TensorOrList τ.Mem),
      ∃ m', prepare_memory_mask ops mem none = .ok (m', none)) ∧
    (∀ (m : τ.Mem) (l : List Nat),
      prepare_memory_mask ops (some (.single m)) (some (.single l)) =
        .ok (some [m], some [sequence_mask l (ops.mem_dim1 m)])) ∧
    (∀ (mems : List τ.Mem) (lens : List (List Nat)),
      prepare_memory_mask ops (some (.seq mems)) (some (.seq lens)) =
        .ok (some mems, some (List.zipWith
          (fun mem len => sequence_mask len (ops.mem_dim1 mem)) mems lens))) ∧
    (∀ (mems : List τ.Mem) (lens : List (List Nat)), mems.length = lens.length →
      (List.zipWith (fun mem len => sequence_mask len (ops.mem_dim1 mem)) mems lens).length
        = mems.length) ∧
    (∀ (lens : List Nat) (maxlen b j : Nat), b < lens.length → j < maxlen →
      ((sequence_mask lens maxlen).getD b []).getD j false = decide (j < lens.getD b 0)) := by
  refine ⟨fun mem => ?_, fun m l => rfl, fun mems lens => ?_, fun mems lens h => ?_, ?_⟩
  · cases mem with
    | none => exact ⟨none, rfl⟩
    | some m => cases m <;> exact ⟨_, rfl⟩
  · exact congrArg (fun x => Except.ok (some mems, some x))
      (zip_map_eq_zipWith (fun mem len => sequence_mask len (ops.mem_dim1 mem)) mems lens)
  · simp [h]
  · intro lens maxlen b j hb hj
    rw [show sequence_mask lens maxlen =
        lens.map (fun l => (List.range maxlen).map (fun j => decide (j < l))) from rfl]
    rw [getD_map_of_lt _ 0 _ lens b hb]
    rw [getD_map_of_lt _ 0 _ (List.range maxlen) j (by simpa using hj)]
    rw [List.getD_eq_getElem (List.range maxlen) 0 (by simpa using hj)]
    simp

/-- C10: `forward` and `forward_fn` ignore `initial_state` and `input_fn`
entirely: two calls differing only in those arguments agree exactly. -/
theorem C10_initial_state_input_fn_ignored {τ : TFTypes}
    {S1 S2 F1 F2 SP : Type} (ops : TFOps τ)
    (self : Multi_domain_SelfAttentionDecoder τ) (inputs : τ.V × τ.Dom)
    (sl : Option (List Nat)) (mem : Option (TensorOrList τ.Mem))
    (msl : Option (TensorOrList (List Nat))) (sp : Option SP) (tr : Option Bool)
    (ad : τ.A) (is1 : Option S1) (is2 : Option S2) (if1 : Option F1)
    (if2 : Option F2) :
    forward ops self inputs sl is1 mem msl if1 sp tr =
      forward ops self inputs sl is2 mem msl if2 sp tr ∧
    forward_fn ops self inputs ad sl is1 mem msl if1 sp tr =
      forward_fn ops self inputs ad sl is2 mem msl if2 sp tr :=
  ⟨rfl, rfl⟩

/-- Evaluation of the C1 mode equivalence on the concrete `Nat` model, at a
two-layer decoder with memory, an explicit sequence length and training
enabled. -/
theorem C1_forward_fn_matches_forward_witness :
    Multi_domain_SelfAttentionDecoder.forward_fn natOps natDecoder (3, 1) 0
        (some [2, 2]) (none : Option Nat) (some (.single 5)) (some (.single [1, 2]))
        (none : Option Nat) (none : Option Nat) (some true) =
      Multi_domain_SelfAttentionDecoder.forward natOps natDecoder (3, 1)
        (some [2, 2]) (none : Option Nat) (some (.single 5)) (some (.single [1, 2]))
        (none : Option Nat) (none : Option Nat) (some true) :=
  C1_forward_fn_matches_forward natOps natDecoder 0
    (by
      intro L hL x m mem mm c tr
      simp only [natDecoder, List.mem_cons, List.not_mem_nil, or_false] at hL
      rcases hL with rfl | rfl <;> rfl)
    (by
      intro L hL x dm
      simp only [natDecoder, List.mem_cons, List.not_mem_nil, or_false] at hL
      rcases hL with rfl | rfl <;> rfl)
    (fun x => rfl) (fun x => rfl) (3, 1) (some [2, 2]) none
    (some (.single 5)) (some (.single [1, 2])) none none (some true)

/-- Evaluation of the C3 composition on the concrete `Nat` model: the
spec-shaped stack value at the preprocessed input, and `_run` returning it
under the single final normalization. -/
theorem C3_attention_adapter_then_single_norm_witness :
    stackSpec natOps
        ((natDecoder.layers.zip natDecoder.multi_domain_layers).map (fun p => (p, none)))
        27 (prepare_query_mask natOps none none 27) (some [5])
        (some [sequence_mask [1, 2] 3]) 7 (some true)
      = (5117, [{ self_kv := (28, 27), memory_kv := [(1, 84)] },
                { self_kv := (594, 592), memory_kv := [(2, 84)] }], some (some 694)) ∧
    _run natOps natDecoder (3, 2) none none (some (.single 5)) (some (.single [1, 2]))
        none (some true) =
      .ok (natDecoder.layer_norm.call 5117,
           [{ self_kv := (28, 27), memory_kv := [(1, 84)] },
            { self_kv := (594, 592), memory_kv := [(2, 84)] }], some 694) :=
  ⟨by decide,
   (C3_attention_adapter_then_single_norm natOps natDecoder (3, 2) none
      (some (.single 5)) (some (.single [1, 2])) none (some true)
      (some [5], some [sequence_mask [1, 2] 3]) rfl 27 rfl).1
    5117
    [{ self_kv := (28, 27), memory_kv := [(1, 84)] },
     { self_kv := (594, 592), memory_kv := [(2, 84)] }]
    (some 694) (by decide)⟩

/-- Evaluation of the C9 memory-mask construction on the concrete `Nat`
model: two memory sources with matching lengths, and an in-bounds mask
entry. -/
theorem C9_memory_mask_witness :
    (([5, 6] : List natTypes.Mem).length = ([[1], [2, 3]] : List (List Nat)).length ∧
      (List.zipWith (fun mem len => sequence_mask len (natOps.mem_dim1 mem))
        ([5, 6] : List natTypes.Mem) [[1], [2, 3]]).length
        = ([5, 6] : List natTypes.Mem).length) ∧
    (1 < ([1, 3] : List Nat).length ∧ 2 < 3 ∧
      ((sequence_mask [1, 3] 3).getD 1 []).getD 2 false
        = decide (2 < ([1, 3] : List Nat).getD 1 0)) :=
  ⟨⟨by decide, (C9_memory_mask natOps).2.2.2.1 [5, 6] [[1], [2, 3]] (by decide)⟩,
   ⟨by decide, by decide,
    (C9_memory_mask natOps).2.2.2.2 [1, 3] 3 1 2 (by decide) (by decide)⟩⟩

end Claims

/-! ### Batch/incremental equivalence for the list model (C2) -/

section C2Lemmas

variable {E AttE MemT MM DomT DMTT DMM AT KV DT RT : Type}
variable (addE : E → E → E) (mem : Option (List MemT)) (mm : Option MemMask)
  (dm : DMM) (tr : Option Bool) (c0 : CacheEntry KV)

/-- `scanStep` yields one output per input position. -/
theorem scanStep_fst_length (stepf : StepFn E MemT KV AttE) :
    ∀ (zs : List E) (c : CacheEntry KV),
      (scanStep stepf zs mem mm c tr).1.length = zs.length
  | [], _ => rfl
  | z :: zs, c => by
    simp only [scanStep, List.length_cons, scanStep_fst_length stepf zs]

/-- `runStack` yields one output position per input position. -/
theorem runStack_fst_length :
    ∀ (pairs : List (StepFn E MemT KV AttE × (DMM → E → E))) (zs : List E)
      (cs : List (CacheEntry KV)),
      (runStack addE mem mm dm tr c0 pairs zs cs).1.length = zs.length
  | [], _, _ => rfl
  | (sf, ad) :: rest, zs, cs => by
    simp only [runStack,
      runStack_fst_length rest ((scanStep sf zs mem mm (cs.headD c0) tr).1.map
        (fun y => addE (ad dm y) y)) cs.tail,
      List.length_map, scanStep_fst_length]

/-- `runStack` yields one final cache entry per layer. -/
theorem runStack_snd_fst_length :
    ∀ (pairs : List (StepFn E MemT KV AttE × (DMM → E → E))) (zs : List E)
      (cs : List (CacheEntry KV)),
      (runStack addE mem mm dm tr c0 pairs zs cs).2.1.length = pairs.length
  | [], _, _ => rfl
  | (sf, ad) :: rest, zs, cs => by
    simp only [runStack, List.length_cons,
      runStack_snd_fst_length rest ((scanStep sf zs mem mm (cs.headD c0) tr).1.map
        (fun y => addE (ad dm y) y)) cs.tail]

/-- `runStack` starting every layer from the zero-length entry is the same
whether the cache list is absent or `c0` replicated. -/
theorem runStack_replicate_c0 :
    ∀ (pairs : List (StepFn E MemT KV AttE × (DMM → E → E))) (zs : List E) (k : Nat),
      runStack addE mem mm dm tr c0 pairs zs (List.replicate k c0) =
        runStack addE mem mm dm tr c0 pairs zs []
  | [], _, _ => rfl
  | (sf, ad) :: rest, zs, k => by
    cases k with
    | zero => rfl
    | succ k =>
      simp only [List.replicate_succ, runStack, List.headD_cons, List.tail_cons,
        List.headD_nil, List.tail_nil, runStack_replicate_c0 rest _ k]

/-- Time decomposition of `runStack`: processing `z :: zs` is processing
`[z]`, then processing `zs` from the resulting per-layer caches — outputs
concatenate and final caches carry over. -/
theorem runStack_time_decomp :
    ∀ (pairs : List (StepFn E MemT KV AttE × (DMM → E → E))) (z : E) (zs : List E)
      (cs : List (CacheEntry KV)),
      (runStack addE mem mm dm tr c0 pairs (z :: zs) cs).1 =
        (runStack addE mem mm dm tr c0 pairs [z] cs).1 ++
          (runStack addE mem mm dm tr c0 pairs zs
            (runStack addE mem mm dm tr c0 pairs [z] cs).2.1).1 ∧
      (runStack addE mem mm dm tr c0 pairs (z :: zs) cs).2.1 =
        (runStack addE mem mm dm tr c0 pairs zs
          (runStack addE mem mm dm tr c0 pairs [z] cs).2.1).2.1 := by
  intro pairs
  induction pairs with
  | nil => intro z zs cs; exact ⟨rfl, rfl⟩
  | cons p rest ih =>
    intro z zs cs
    obtain ⟨sf, ad⟩ := p
    simp only [runStack, scanStep, List.map_cons, List.map_nil, List.headD_cons,
      List.tail_cons]
    generalize sf z mem mm (cs.headD c0) tr = r1
    generalize scanStep sf zs mem mm r1.2.1 tr = R
    constructor
    · exact (ih (addE (ad dm r1.1) r1.1)
        (R.1.map (fun y => addE (ad dm y) y)) cs.tail).1
    · exact congrArg (fun l => R.2.1 :: l)
        (ih (addE (ad dm r1.1) r1.1) (R.1.map (fun y => addE (ad dm y) y)) cs.tail).2

/-- Full-sequence `runStack` equals its time-major iteration `iterStack` on
the outputs, from any starting caches. -/
theorem stack_commute :
    ∀ (zs : List E) (pairs : List (StepFn E MemT KV AttE × (DMM → E → E)))
      (cs : List (CacheEntry KV)),
      (runStack addE mem mm dm tr c0 pairs zs cs).1 =
        (iterStack addE mem mm dm tr c0 pairs zs cs).1
  | [], pairs, cs => by
    simp only [iterStack]
    exact List.length_eq_zero.mp (runStack_fst_length addE mem mm dm tr c0 pairs [] cs)
  | z :: zs, pairs, cs => by
    simp only [iterStack]
    rw [(runStack_time_decomp addE mem mm dm tr c0 pairs z zs cs).1]
    exact congrArg (fun l => (runStack addE mem mm dm tr c0 pairs [z] cs).1 ++ l)
      (stack_commute zs pairs (runStack addE mem mm dm tr c0 pairs [z] cs).2.1)

/-- `(X.map some).getD (some y)` distributes to `some (X.getD y)`. -/
theorem map_some_getD {α : Type} (X : Option α) (y : α) :
    (X.map some).getD (some y) = some (X.getD y) := by
  cases X <;> rfl

/-- Residual addition of a mapped list is a single pointwise map. -/
theorem add_map_residual (f : E → E) (l : List E) :
    List.zipWith addE (l.map f) l = l.map (fun y => addE (f y) y) := by
  rw [List.zipWith_map_left]
  exact List.zipWith_same _ l

end C2Lemmas

section C2Bridge

open Multi_domain_SelfAttentionDecoder

variable {E AttE MemT MM DomT DMTT DMM AT KV DT RT : Type}
variable [Inhabited E] [Inhabited AttE]
variable (scaleE : Nat → E → E) (dropE : RT → Option Bool → E → E)
  (addE : E → E → E) (lookupE : DMTT → DomT → DMM) (memDim : MemT → Nat)
  (fmk : List Nat → Nat → MM) (zerosE : List Nat → DT → KV) (batch : Nat)
variable (mem : Option (List MemT)) (mm : Option MemMask) (dm : DMM)
  (tr : Option Bool) (c0 : CacheEntry KV)

/-- The translated layer loop `runLayers`, on a stack of sequence-coherent
layers with pointwise adapters, is `runStack`: with no cache every layer
scans from the zero-length entry `c0`, with a cache covering the stack every
layer scans from its own entry. -/
theorem runLayers_model :
    ∀ (sfads : List (StepFn E MemT KV AttE × (DMM → E → E)))
      (zs : List E) (mask : Option MM) (copt : Option (List (CacheEntry KV))),
      (∀ cs, copt = some cs → sfads.length ≤ cs.length) →
      runLayers
          (listOps scaleE dropE addE lookupE memDim fmk zerosE batch :
            TFOps (listTypes E AttE MemT MM DomT DMTT DMM AT KV DT RT))
          (sfads.map (Prod.map (fun sf => seqAttentionLayer sf c0) pointwiseAdapter))
          zs mask mem mm copt dm tr =
        .ok ((runStack addE mem mm dm tr c0 sfads zs (csOf copt)).1,
             (runStack addE mem mm dm tr c0 sfads zs (csOf copt)).2.1,
             Option.map some (runStack addE mem mm dm tr c0 sfads zs (csOf copt)).2.2) := by
  intro sfads
  induction sfads with
  | nil => intro zs mask copt hc; rfl
  | cons p rest ih =>
    intro zs mask copt hc
    obtain ⟨sf, ad⟩ := p
    cases copt with
    | none =>
      have ih' := fun zs mask => ih zs mask none (fun cs h => nomatch h)
      simp only [List.map_cons, Prod.map_apply, runLayers, Option.map_none']
      rw [ih']
      simp only [seqAttentionLayer, pointwiseAdapter, listOps, Option.getD_none,
        csOf, runStack, List.headD_nil, List.tail_nil, add_map_residual,
        map_some_getD, Option.map_none', Option.map_some']
    | some cs =>
      cases cs with
      | nil =>
        exfalso
        have := hc [] rfl
        simp at this
      | cons ch ct =>
        have hct : rest.length ≤ ct.length := by
          have := hc (ch :: ct) rfl
          simpa using this
        have ih' := fun zs mask => ih zs mask (some ct)
          (fun cs h => by cases h; exact hct)
        simp only [List.map_cons, Prod.map_apply, runLayers, Option.map_some',
          List.drop_succ_cons, List.drop_zero]
        rw [ih']
        simp only [seqAttentionLayer, pointwiseAdapter, listOps, Option.getD_some,
          csOf, runStack, List.headD_cons, List.tail_cons, add_map_residual,
          map_some_getD, Option.map_none', Option.map_some']

end C2Bridge

section C2Main

open Multi_domain_SelfAttentionDecoder

variable {E AttE MemT MM DomT DMTT DMM AT KV DT RT : Type}
variable [Inhabited E] [Inhabited AttE]
variable (scaleE : Nat → E → E) (dropE : RT → Option Bool → E → E)
  (addE : E → E → E) (lookupE : DMTT → DomT → DMM) (memDim : MemT → Nat)
  (fmk : List Nat → Nat → MM) (zerosE : List Nat → DT → KV) (batch : Nat)
  (num_units num_heads num_sources : Nat) (rate : RT)
  (pencE : Nat → E → E) (normE outE : E → E)
  (stepfs : List (StepFn E MemT KV AttE)) (adEs : List (DMM → E → E))
  (dmt : DMTT) (dtype : DT)

/-- The full-sequence preprocessing — scale each position, position-encode
position `i` at `i + 1`, apply dropout — is `preSeq` of the composed
per-position function. -/
theorem preprocess_eq_preSeq (g d : E → E) :
    ∀ (xs : List E) (n : Nat),
      (((xs.map g).enumFrom n).map (fun ie => pencE (ie.1 + 1) ie.2)).map d =
        preSeq (fun i x => d (pencE (i + 1) (g x))) xs n
  | [], _ => rfl
  | x :: xs, n => by
    simp only [List.map_cons, List.enumFrom_cons, preSeq]
    exact congrArg _ (preprocess_eq_preSeq g d xs (n + 1))

/-- On a nonempty stack, `runStack` always reports an attention value. -/
theorem runStack_att_cons (mem : Option (List MemT)) (mm : Option MemMask)
    (dm : DMM) (tr : Option Bool) (c0 : CacheEntry KV)
    (q : StepFn E MemT KV AttE × (DMM → E → E))
    (qs : List (StepFn E MemT KV AttE × (DMM → E → E)))
    (zs : List E) (cs : List (CacheEntry KV)) :
    ∃ l, (runStack addE mem mm dm tr c0 (q :: qs) zs cs).2.2 = some l := by
  obtain ⟨sf, ad⟩ := q
  exact ⟨_, rfl⟩

/-- The layer/adapter pairing of a `mkSeqDecoder` is the mapped pairing of
its per-layer semantic functions. -/
theorem mkSeqDecoder_layers_zip :
    ((mkSeqDecoder num_units num_heads num_sources rate pencE normE outE stepfs
        adEs dmt zerosE batch dtype :
      Multi_domain_SelfAttentionDecoder
        (listTypes E AttE MemT MM DomT DMTT DMM AT KV DT RT)).layers.zip
      (mkSeqDecoder num_units num_heads num_sources rate pencE normE outE stepfs
        adEs dmt zerosE batch dtype :
      Multi_domain_SelfAttentionDecoder
        (listTypes E AttE MemT MM DomT DMTT DMM AT KV DT RT)).multi_domain_layers) =
    (stepfs.zip adEs).map (Prod.map
      (fun sf => seqAttentionLayer sf
        (initialEntry zerosE batch num_heads num_units num_sources dtype))
      pointwiseAdapter) := by
  simp only [mkSeqDecoder]
  exact List.zip_map _ _ stepfs adEs

/-- `_get_initial_state` of a `mkSeqDecoder` is one copy of the zero-length
`initialEntry` per layer semantic function. -/
theorem mkSeqDecoder_initial_state {I : Type} (ist : Option I) :
    _get_initial_state
        (listOps scaleE dropE addE lookupE memDim fmk zerosE batch :
          TFOps (listTypes E AttE MemT MM DomT DMTT DMM AT KV DT RT))
        (mkSeqDecoder num_units num_heads num_sources rate pencE normE outE stepfs
          adEs dmt zerosE batch dtype)
        batch dtype ist =
      List.replicate stepfs.length
        (initialEntry zerosE batch num_heads num_units num_sources dtype) := by
  simp only [_get_initial_state, mkSeqDecoder, initialEntry, listOps,
    List.map_const', List.length_map]

/-- Projection of the list-model operations: domain-mask lookup. -/
theorem listOps_embedding_lookup :
    (listOps scaleE dropE addE lookupE memDim fmk zerosE batch :
      TFOps (listTypes E AttE MemT MM DomT DMTT DMM AT KV DT RT)).embedding_lookup
      = lookupE := rfl

/-- Projection of the list-model operations: scaling maps per position. -/
theorem listOps_scale :
    (listOps scaleE dropE addE lookupE memDim fmk zerosE batch :
      TFOps (listTypes E AttE MemT MM DomT DMTT DMM AT KV DT RT)).scale
      = fun l n => l.map (scaleE n) := rfl

/-- Projection of the list-model operations: dropout maps per position. -/
theorem listOps_dropout :
    (listOps scaleE dropE addE lookupE memDim fmk zerosE batch :
      TFOps (listTypes E AttE MemT MM DomT DMTT DMM AT KV DT RT)).dropout
      = fun l r tr => l.map (dropE r tr) := rfl

/-- Projection of the list-model operations: expanding makes a singleton. -/
theorem listOps_expand_dims1 :
    (listOps scaleE dropE addE lookupE memDim fmk zerosE batch :
      TFOps (listTypes E AttE MemT MM DomT DMTT DMM AT KV DT RT)).expand_dims1
      = fun e => [e] := rfl

/-- Projection of the list-model operations: squeezing takes the head. -/
theorem listOps_squeeze1 :
    (listOps scaleE dropE addE lookupE memDim fmk zerosE batch :
      TFOps (listTypes E AttE MemT MM DomT DMTT DMM AT KV DT RT)).squeeze1
      = fun l => l.headD default := rfl

/-- Projection of a `mkSeqDecoder`: the hidden width. -/
theorem mkSeqDecoder_num_units :
    (mkSeqDecoder num_units num_heads num_sources rate pencE normE outE stepfs
        adEs dmt zerosE batch dtype :
      Multi_domain_SelfAttentionDecoder
        (listTypes E AttE MemT MM DomT DMTT DMM AT KV DT RT)).num_units = num_units := rfl

/-- Projection of a `mkSeqDecoder`: the dropout rate. -/
theorem mkSeqDecoder_rate :
    (mkSeqDecoder num_units num_heads num_sources rate pencE normE outE stepfs
        adEs dmt zerosE batch dtype :
      Multi_domain_SelfAttentionDecoder
        (listTypes E AttE MemT MM DomT DMTT DMM AT KV DT RT)).dropout = rate := rfl

/-- Projection of a `mkSeqDecoder`: the domain-mask table. -/
theorem mkSeqDecoder_mask_table :
    (mkSeqDecoder num_units num_heads num_sources rate pencE normE outE stepfs
        adEs dmt zerosE batch dtype :
      Multi_domain_SelfAttentionDecoder
        (listTypes E AttE MemT MM DomT DMTT DMM AT KV DT RT)).mask = dmt := rfl

/-- Projection of a `mkSeqDecoder`: the position encoder. -/
theorem mkSeqDecoder_position_encoder :
    (mkSeqDecoder num_units num_heads num_sources rate pencE normE outE stepfs
        adEs dmt zerosE batch dtype :
      Multi_domain_SelfAttentionDecoder
        (listTypes E AttE MemT MM DomT DMTT DMM AT KV DT RT)).position_encoder
      = some (seqPositionEncoder pencE) := rfl

/-- Projection of a `mkSeqDecoder`: the final normalization maps
`normE` per position. -/
theorem mkSeqDecoder_layer_norm_call :
    (mkSeqDecoder num_units num_heads num_sources rate pencE normE outE stepfs
        adEs dmt zerosE batch dtype :
      Multi_domain_SelfAttentionDecoder
        (listTypes E AttE MemT MM DomT DMTT DMM AT KV DT RT)).layer_norm.call
      = fun l => l.map normE := rfl

/-- Projection of a `mkSeqDecoder`: the output projection maps `outE` per
position. -/
theorem mkSeqDecoder_output_layer_call :
    (mkSeqDecoder num_units num_heads num_sources rate pencE normE outE stepfs
        adEs dmt zerosE batch dtype :
      Multi_domain_SelfAttentionDecoder
        (listTypes E AttE MemT MM DomT DMTT DMM AT KV DT RT)).output_layer.call
      = fun l => l.map outE := rfl

/-- Sequentially stepping a `mkSeqDecoder` through known positions, from any
cache covering the stack, is the time-major iteration of the reference
stack semantics on the preprocessed positions, each output finally
normalized. -/
theorem stepDecode_eq_iterStack
    (memory : Option (TensorOrList MemT)) (msl : Option (TensorOrList (List Nat)))
    (dom : DomT) (tr : Option Bool)
    (pm : Option (List MemT) × Option MemMask)
    (hm : prepare_memory_mask
        (listOps scaleE dropE addE lookupE memDim fmk zerosE batch :
          TFOps (listTypes E AttE MemT MM DomT DMTT DMM AT KV DT RT)) memory msl
      = .ok pm)
    (hne : stepfs.zip adEs ≠ []) :
    ∀ (xs : List E) (t : Nat) (state : List (CacheEntry KV)),
      (stepfs.zip adEs).length ≤ state.length →
      stepDecodeFrom
          (listOps scaleE dropE addE lookupE memDim fmk zerosE batch :
            TFOps (listTypes E AttE MemT MM DomT DMTT DMM AT KV DT RT))
          (mkSeqDecoder num_units num_heads num_sources rate pencE normE outE
            stepfs adEs dmt zerosE batch dtype)
          dom memory msl tr xs t state =
        .ok (((iterStack addE pm.1 pm.2 (lookupE dmt dom) tr
            (initialEntry zerosE batch num_heads num_units num_sources dtype)
            (stepfs.zip adEs)
            (preSeq (fun i x => dropE rate tr (pencE (i + 1) (scaleE num_units x))) xs t)
            state).1).map normE,
          (iterStack addE pm.1 pm.2 (lookupE dmt dom) tr
            (initialEntry zerosE batch num_heads num_units num_sources dtype)
            (stepfs.zip adEs)
            (preSeq (fun i x => dropE rate tr (pencE (i + 1) (scaleE num_units x))) xs t)
            state).2) := by
  intro xs
  induction xs with
  | nil => intro t state hstate; rfl
  | cons x xs ihx =>
    intro t state hstate
    obtain ⟨l, hl⟩ : ∃ l,
        (runStack addE pm.1 pm.2 (lookupE dmt dom) tr
          (initialEntry zerosE batch num_heads num_units num_sources dtype)
          (stepfs.zip adEs)
          [dropE rate tr (pencE (t + 1) (scaleE num_units x))] state).2.2 = some l := by
      rcases List.exists_cons_of_ne_nil hne with ⟨q, qs, hq⟩
      rw [hq]
      exact runStack_att_cons addE pm.1 pm.2 (lookupE dmt dom) tr
        (initialEntry zerosE batch num_heads num_units num_sources dtype) q qs _ state
    obtain ⟨y, hy⟩ := List.length_eq_one.mp
      (runStack_fst_length addE pm.1 pm.2 (lookupE dmt dom) tr
        (initialEntry zerosE batch num_heads num_units num_sources dtype)
        (stepfs.zip adEs)
        [dropE rate tr (pencE (t + 1) (scaleE num_units x))] state)
    have hrl := fun zs mask =>
      @runLayers_model E AttE MemT MM DomT DMTT DMM AT KV DT RT _ _
        scaleE dropE addE lookupE memDim fmk zerosE batch
        pm.1 pm.2 (lookupE dmt dom) tr
        (initialEntry zerosE batch num_heads num_units num_sources dtype)
        (stepfs.zip adEs) zs mask (some state)
        (fun cs h => by cases h; exact hstate)
    have hstate2 : (stepfs.zip adEs).length ≤
        ((runStack addE pm.1 pm.2 (lookupE dmt dom) tr
          (initialEntry zerosE batch num_heads num_units num_sources dtype)
          (stepfs.zip adEs)
          [dropE rate tr (pencE (t + 1) (scaleE num_units x))] state).2.1).length := by
      rw [runStack_snd_fst_length]
    have hihx := ihx (t + 1) _ hstate2
    simp only [stepDecodeFrom, Multi_domain_SelfAttentionDecoder.step, _run,
      listOps_expand_dims1, listOps_scale, listOps_dropout, listOps_embedding_lookup,
      listOps_squeeze1, mkSeqDecoder_position_encoder, mkSeqDecoder_num_units,
      mkSeqDecoder_rate, mkSeqDecoder_mask_table,
      mkSeqDecoder_layer_norm_call, mkSeqDecoder_layers_zip, seqPositionEncoder,
      Option.map_some', List.map_cons, List.map_nil, hm, hrl, csOf, hl, hy, hihx,
      preSeq, iterStack, List.headD_cons, List.singleton_append]

/-- C2: for a fully-known target sequence, one `forward` pass over all
positions produces, position by position, the same logits as running `step`
sequentially from the `_get_initial_state` cache, feeding the known token at
each step — on the list model whose attention layers satisfy the
causal-attention contract (full-sequence invocation under the causal mask
coincides with sequential cached stepping, the two modes differing exactly
in the position-encoding argument and the absence of a causal mask in step
mode).  `forward`'s logits are the per-step outputs projected by the output
head. -/
theorem C2_forward_equals_sequential_steps
    (memory : Option (TensorOrList MemT)) (msl : Option (TensorOrList (List Nat)))
    (dom : DomT) (tr : Option Bool)
    (pm : Option (List MemT) × Option MemMask)
    (hm : prepare_memory_mask
        (listOps scaleE dropE addE lookupE memDim fmk zerosE batch :
          TFOps (listTypes E AttE MemT MM DomT DMTT DMM AT KV DT RT)) memory msl
      = .ok pm)
    (hne : stepfs.zip adEs ≠ [])
    (xs : List E) :
    ∃ (ys : List E) (S C : List (CacheEntry KV)) (A : Option (List AttE)),
      stepDecodeFrom
          (listOps scaleE dropE addE lookupE memDim fmk zerosE batch :
            TFOps (listTypes E AttE MemT MM DomT DMTT DMM AT KV DT RT))
          (mkSeqDecoder num_units num_heads num_sources rate pencE normE outE
            stepfs adEs dmt zerosE batch dtype)
          dom memory msl tr xs 0
          (Multi_domain_SelfAttentionDecoder._get_initial_state
            (listOps scaleE dropE addE lookupE memDim fmk zerosE batch)
            (mkSeqDecoder num_units num_heads num_sources rate pencE normE outE
              stepfs adEs dmt zerosE batch dtype)
            batch dtype (none : Option Unit)) = .ok (ys, S) ∧
      Multi_domain_SelfAttentionDecoder.forward
          (listOps scaleE dropE addE lookupE memDim fmk zerosE batch :
            TFOps (listTypes E AttE MemT MM DomT DMTT DMM AT KV DT RT))
          (mkSeqDecoder num_units num_heads num_sources rate pencE normE outE
            stepfs adEs dmt zerosE batch dtype)
          (xs, dom) none (none : Option Unit) memory msl (none : Option Unit)
          (none : Option Unit) tr
        = .ok (ys.map outE, C, A) := by
  obtain ⟨l, hl⟩ : ∃ l,
      (runStack addE pm.1 pm.2 (lookupE dmt dom) tr
        (initialEntry zerosE batch num_heads num_units num_sources dtype)
        (stepfs.zip adEs)
        (preSeq (fun i x => dropE rate tr (pencE (i + 1) (scaleE num_units x))) xs 0)
        []).2.2 = some l := by
    rcases List.exists_cons_of_ne_nil hne with ⟨q, qs, hq⟩
    rw [hq]
    exact runStack_att_cons addE pm.1 pm.2 (lookupE dmt dom) tr
      (initialEntry zerosE batch num_heads num_units num_sources dtype) q qs _ []
  have hstate : (stepfs.zip adEs).length ≤
      (List.replicate stepfs.length
        (initialEntry zerosE batch num_heads num_units num_sources dtype)).length := by
    simp only [List.length_replicate, List.length_zip]
    exact Nat.min_le_left _ _
  have hstep := stepDecode_eq_iterStack scaleE dropE addE lookupE memDim fmk
    zerosE batch num_units num_heads num_sources rate pencE normE outE stepfs
    adEs dmt dtype memory msl dom tr pm hm hne xs 0
    (List.replicate stepfs.length
      (initialEntry zerosE batch num_heads num_units num_sources dtype)) hstate
  have hinit := @mkSeqDecoder_initial_state E AttE MemT MM DomT DMTT DMM AT KV
    DT RT _ _ scaleE dropE addE lookupE memDim fmk zerosE batch num_units
    num_heads num_sources rate pencE normE outE stepfs adEs dmt dtype Unit
    (none : Option Unit)
  have hrep := runStack_replicate_c0 addE pm.1 pm.2 (lookupE dmt dom) tr
    (initialEntry zerosE batch num_heads num_units num_sources dtype)
    (stepfs.zip adEs)
    (preSeq (fun i x => dropE rate tr (pencE (i + 1) (scaleE num_units x))) xs 0)
    stepfs.length
  have hcomm := stack_commute addE pm.1 pm.2 (lookupE dmt dom) tr
    (initialEntry zerosE batch num_heads num_units num_sources dtype)
    (preSeq (fun i x => dropE rate tr (pencE (i + 1) (scaleE num_units x))) xs 0)
    (stepfs.zip adEs)
    (List.replicate stepfs.length
      (initialEntry zerosE batch num_heads num_units num_sources dtype))
  have hbridge :
      (runStack addE pm.1 pm.2 (lookupE dmt dom) tr
        (initialEntry zerosE batch num_heads num_units num_sources dtype)
        (stepfs.zip adEs)
        (preSeq (fun i x => dropE rate tr (pencE (i + 1) (scaleE num_units x))) xs 0)
        []).1 =
      (iterStack addE pm.1 pm.2 (lookupE dmt dom) tr
        (initialEntry zerosE batch num_heads num_units num_sources dtype)
        (stepfs.zip adEs)
        (preSeq (fun i x => dropE rate tr (pencE (i + 1) (scaleE num_units x))) xs 0)
        (List.replicate stepfs.length
          (initialEntry zerosE batch num_heads num_units num_sources dtype))).1 :=
    ((congrArg (fun r => r.1) hrep).symm).trans hcomm
  have hrl0 := fun zs mask =>
    @runLayers_model E AttE MemT MM DomT DMTT DMM AT KV DT RT _ _
      scaleE dropE addE lookupE memDim fmk zerosE batch
      pm.1 pm.2 (lookupE dmt dom) tr
      (initialEntry zerosE batch num_heads num_units num_sources dtype)
      (stepfs.zip adEs) zs mask none (fun cs h => nomatch h)
  have hpre := preprocess_eq_preSeq pencE (scaleE num_units) (dropE rate tr) xs 0
  refine ⟨((iterStack addE pm.1 pm.2 (lookupE dmt dom) tr
      (initialEntry zerosE batch num_heads num_units num_sources dtype)
      (stepfs.zip adEs)
      (preSeq (fun i x => dropE rate tr (pencE (i + 1) (scaleE num_units x))) xs 0)
      (List.replicate stepfs.length
        (initialEntry zerosE batch num_heads num_units num_sources dtype))).1).map normE,
    (iterStack addE pm.1 pm.2 (lookupE dmt dom) tr
      (initialEntry zerosE batch num_heads num_units num_sources dtype)
      (stepfs.zip adEs)
      (preSeq (fun i x => dropE rate tr (pencE (i + 1) (scaleE num_units x))) xs 0)
      (List.replicate stepfs.length
        (initialEntry zerosE batch num_heads num_units num_sources dtype))).2,
    (runStack addE pm.1 pm.2 (lookupE dmt dom) tr
      (initialEntry zerosE batch num_heads num_units num_sources dtype)
      (stepfs.zip adEs)
      (preSeq (fun i x => dropE rate tr (pencE (i + 1) (scaleE num_units x))) xs 0)
      []).2.1,
    some l, ?_, ?_⟩
  · rw [hinit]
    exact hstep
  · simp only [Multi_domain_SelfAttentionDecoder.forward, _run,
      listOps_embedding_lookup, listOps_scale, listOps_dropout,
      mkSeqDecoder_mask_table, mkSeqDecoder_num_units, mkSeqDecoder_rate,
      mkSeqDecoder_position_encoder, mkSeqDecoder_layer_norm_call,
      mkSeqDecoder_output_layer_call, mkSeqDecoder_layers_zip,
      seqPositionEncoder, Option.map_none', List.enum, hm, hrl0, csOf, hpre, hl]
    rw [hbridge]
    rfl

end C2Main

/-- Evaluation of the C2 batch/incremental equivalence on the concrete `Nat`
list model: a two-layer cache-sensitive decoder, a three-token known target,
memory with lengths, and training enabled. -/
theorem C2_forward_equals_sequential_steps_witness :
    ∃ (ys : List Nat) (S C : List (CacheEntry Nat)) (A : Option (List Nat)),
      stepDecodeFrom wOps wDecoder 2 (some (.single 5)) (some (.single [2, 1]))
          (some true) [3, 1, 4] 0
          (Multi_domain_SelfAttentionDecoder._get_initial_state wOps wDecoder 2 7
            (none : Option Unit)) = .ok (ys, S) ∧
      Multi_domain_SelfAttentionDecoder.forward wOps wDecoder ([3, 1, 4], 2) none
          (none : Option Unit) (some (.single 5)) (some (.single [2, 1]))
          (none : Option Unit) (none : Option Unit) (some true)
        = .ok (ys.map (fun e => e * 2 + 1), C, A) :=
  @C2_forward_equals_sequential_steps Nat Nat Nat Nat Nat Nat Nat Nat Nat Nat Nat
    _ _ (fun n e => e * n) (fun r _ e => e + r) (fun a b => a + b)
    (fun t d => t * 100 + d) (fun m => m % 3 + 1) (fun l m => l.sum + m)
    (fun sh dt => sh.sum + dt) 2 4 2 1 1 (fun t e => e * 10 + t)
    (fun e => e + 1000) (fun e => e * 2 + 1) [wStepF1, wStepF2]
    [fun dm e => e + dm, fun dm e => 2 * e + dm] 1 7
    (some (.single 5)) (some (.single [2, 1])) 2 (some true)
    (some [5], some [sequence_mask [2, 1] 3]) rfl (by simp) [3, 1, 4]
